import Mathlib

/-!
Verification of the reselect memoization-and-composition engine.

The development shallowly embeds the repository's code:
* `src/src/utils.ts` is embedded directly (value model, assertions,
  dependency extraction, input-selector result collection, stability check).
* The default equality-gated memoizer and the selector factory are not part
  of the delivered sources (only their types, tests and callers are); they
  are modelled from the specification, as marked on each definition.

JavaScript runtime values relevant to the validation helpers are modelled by
`JSValue`; machine behaviour such as `typeof` is made explicit.  Fallible
code returns `Except`.
-/

namespace Reselect

/-- A JavaScript runtime value, as far as the validation helpers in
`utils.ts` can observe one: the helpers only look at `typeof`, at
`Array.isArray`, and at a function's `name`. -/
inductive JSValue where
  | undefined
  | null
  | boolean (b : Bool)
  | number (n : Int)
  | str (s : String)
  | func (name : String)
  | array (elems : List JSValue)
  | plainObject

/-- The JavaScript `typeof` operator on the modelled values.  Note that
`typeof null` is the string `"object"`. -/
def typeOf : JSValue → String
  | JSValue.undefined => "undefined"
  | JSValue.null => "object"
  | JSValue.boolean _ => "boolean"
  | JSValue.number _ => "number"
  | JSValue.str _ => "string"
  | JSValue.func _ => "function"
  | JSValue.array _ => "object"
  | JSValue.plainObject => "object"

/-- `typeof item === 'function'`. -/
def isFunction : JSValue → Bool
  | JSValue.func _ => true
  | _ => false

/-- A thrown JavaScript error, as produced by the validation helpers. -/
inductive JSError where
  | typeError (message : String)
deriving DecidableEq

/-- Embeds `assertIsObject` from `src/src/utils.ts`: throws a `TypeError`
when `typeof object !== 'object'`, with the source's default message. -/
def assertIsObject (object : JSValue)
    (errorMessage : String := "expected an object, instead received " ++ typeOf object) :
    Except JSError Unit :=
  if typeOf object = "object" then Except.ok ()
  else Except.error (JSError.typeError errorMessage)

/-- The per-item description used in `assertIsArrayOfFunctions`:
`function ${item.name || 'unnamed'}()` for functions, `typeof item`
otherwise. -/
def itemTypeDescription : JSValue → String
  | JSValue.func name => "function " ++ (if name = "" then ("unnamed") else name) ++ "()"
  | v => typeOf v

/-- Embeds `assertIsArrayOfFunctions` from `src/src/utils.ts`: when some item
is not a function, throws a `TypeError` whose message appends the bracketed,
comma-separated descriptions of the types of every item. -/
def assertIsArrayOfFunctions (array : List JSValue)
    (errorMessage : String := "expected all items to be functions, instead received the following types: ") :
    Except JSError Unit :=
  if array.all isFunction then Except.ok ()
  else
    Except.error (JSError.typeError
      (errorMessage ++ "[" ++ String.intercalate (", ") (array.map itemTypeDescription) ++ "]"))

/-- The candidate dependency list chosen by `getDependencies`:
`Array.isArray(createSelectorArgs[0]) ? createSelectorArgs[0] : createSelectorArgs`. -/
def selectorCandidates (createSelectorArgs : List JSValue) : List JSValue :=
  match createSelectorArgs.head? with
  | some (JSValue.array deps) => deps
  | _ => createSelectorArgs

/-- Embeds `getDependencies` from `src/src/utils.ts`: picks the candidate
list and validates it with `assertIsArrayOfFunctions` under the
`createSelector` error message. -/
def getDependencies (createSelectorArgs : List JSValue) : Except JSError (List JSValue) :=
  let dependencies := selectorCandidates createSelectorArgs
  match assertIsArrayOfFunctions dependencies
      ("createSelector expects all input-selectors to be functions, but received the following types: ") with
  | Except.ok _ => Except.ok dependencies
  | Except.error e => Except.error e

/-- Embeds `collectInputSelectorResults` from `src/src/utils.ts`: the loop
`for (i = 0; i < length; i++) results.push(dependencies[i].apply(null, args))`
as a left fold that pushes each result in turn. -/
def collectInputSelectorResults {A B : Type} (dependencies : List (A → B))
    (inputSelectorArgs : A) : List B :=
  dependencies.foldl
    (fun inputSelectorResults dep => inputSelectorResults ++ [dep inputSelectorArgs]) []

/-- The same collection loop over effectful input selectors: each dependency
may also thread a log, which records the order in which the loop invokes the
dependencies. -/
def collectInputSelectorResultsM {A B I : Type}
    (dependencies : List (A → List I → B × List I)) (a : A) (log : List I) :
    List B × List I :=
  match dependencies with
  | [] => ([], log)
  | dep :: rest =>
    let r := dep a log
    let rec2 := collectInputSelectorResultsM rest a r.2
    (r.1 :: rec2.1, rec2.2)

/-- Modelled from the spec: the Cache Entry of the Default Memoizer
(`{lastArgs, lastResult, hasValue}` — absence of an entry models
`hasValue: false`, so the `Option` wrapper below carries that flag). -/
structure CacheEntry (V R : Type) where
  lastArgs : List V
  lastResult : R
deriving DecidableEq

/-- Modelled from the spec: the positional argument comparison of the
Default Memoizer — a miss when the argument count differs or some
`equalityPredicate(arg_i, lastArgs_i)` is false, where the predicate
receives `(newValue, oldValue)` in that order. -/
def argsEqual {V : Type} (eq : V → V → Bool) : List V → List V → Bool
  | [], [] => true
  | x :: xs, y :: ys => eq x y && argsEqual eq xs ys
  | _, _ => false

/-- Modelled from the spec: one call of the Default Memoizer
(`defaultMemoize`, absent from the delivered sources).  Given the equality
predicate, the wrapped function, the current cache slot and the call
arguments, it returns the call's outcome, the new cache slot, and whether
the wrapped function was invoked.  A hit returns `lastResult` without
invoking the function and refreshes the stored argument list to the current
call's arguments (the behaviour the delivered test `exported memoize passes
correct objects to equalityCheck` pins: after a hit, the next comparison is
against the hit call's own arguments); a successful miss overwrites the
slot; a throwing miss propagates the failure without touching the slot. -/
def memoCall {V R E : Type} (eq : V → V → Bool) (fn : List V → Except E R)
    (cache : Option (CacheEntry V R)) (args : List V) :
    Except E R × Option (CacheEntry V R) × Bool :=
  match cache with
  | some entry =>
    if argsEqual eq args entry.lastArgs then
      (Except.ok entry.lastResult, some (CacheEntry.mk args entry.lastResult), false)
    else
      match fn args with
      | Except.ok v => (Except.ok v, some (CacheEntry.mk args v), true)
      | Except.error e => (Except.error e, some entry, true)
  | none =>
    match fn args with
    | Except.ok v => (Except.ok v, some (CacheEntry.mk args v), true)
    | Except.error e => (Except.error e, none, true)

/-- The pairs handed to the equality predicate by one positional comparison,
in consultation order: comparison stops at the first `false`, and no pair is
consulted when the argument counts differ. -/
def consultPairs {V : Type} (eq : V → V → Bool) : List V → List V → List (V × V)
  | x :: xs, y :: ys =>
    if eq x y then (x, y) :: consultPairs eq xs ys else [(x, y)]
  | _, _ => []

/-- Modelled from the spec: the pairs `(newValue, oldValue)` on which one
`memoCall` consults the equality predicate.  With no cache entry, or when
the argument count differs from the cached one, the predicate is never
consulted. -/
def memoConsultTrace {V R : Type} (eq : V → V → Bool)
    (cache : Option (CacheEntry V R)) (args : List V) : List (V × V) :=
  match cache with
  | some entry =>
    if args.length = entry.lastArgs.length then consultPairs eq args entry.lastArgs
    else []
  | none => []

/-- Modelled from the spec: the mutable introspection state of an Output
Selector — the argument-level cache slot (tier 2), the result-level cache
slot (tier 1) and the recomputation counter. -/
structure SelectorState (V R : Type) where
  argsCache : Option (CacheEntry V R)
  resultCache : Option (CacheEntry V R)
  recomputations : Nat
deriving DecidableEq

/-- Modelled from the spec: the raw selector body of the Selector Factory —
run every extractor in declaration order on the call arguments, then feed
the collected results through the result-level memoizer; each invocation of
the underlying combiner (every tier-1 miss, throwing or not) increments the
recomputation counter; a successful call overwrites the argument-level slot,
a throwing call leaves both slots untouched. -/
def selectorBody {V R E : Type} (eqRes : V → V → Bool) (deps : List (List V → V))
    (combiner : List V → Except E R) (st : SelectorState V R) (args : List V) :
    Except E R × SelectorState V R :=
  match memoCall eqRes combiner st.resultCache (collectInputSelectorResults deps args) with
  | (Except.ok v, rc, invoked) =>
    (Except.ok v,
      SelectorState.mk (some (CacheEntry.mk args v)) rc
        (st.recomputations + (if invoked then 1 else 0)))
  | (Except.error e, rc, invoked) =>
    (Except.error e,
      SelectorState.mk st.argsCache rc
        (st.recomputations + (if invoked then 1 else 0)))

/-- Modelled from the spec: one call of the Output Selector built by the
Selector Factory — the argument-level memoizer first decides whether the raw
arguments can be served from its slot; only on a miss does the body
(extractors, then result-level memoizer, then combiner) run.  As with the
result tier, a hit refreshes the slot's stored argument list to the current
call's arguments. -/
def selectorCall {V R E : Type} (eqArgs eqRes : V → V → Bool)
    (deps : List (List V → V)) (combiner : List V → Except E R)
    (st : SelectorState V R) (args : List V) :
    Except E R × SelectorState V R :=
  match st.argsCache with
  | some entry =>
    if argsEqual eqArgs args entry.lastArgs then
      (Except.ok entry.lastResult,
        SelectorState.mk (some (CacheEntry.mk args entry.lastResult))
          st.resultCache st.recomputations)
    else selectorBody eqRes deps combiner st args
  | none => selectorBody eqRes deps combiner st args

/-- Modelled from the spec: `resetRecomputations()` zeroes the counter and
clears both memoizer cache slots so that a fresh recomputation is forced on
the next call. -/
def resetRecomputations {V R : Type} (_st : SelectorState V R) : SelectorState V R :=
  SelectorState.mk none none 0

/-- Modelled from the spec: the combiner built by the Structured Selector
Builder — re-zip the shape's keys, in the same order, onto the extractor
results. -/
def structuredCombiner {V E : Type} (keys : List String) :
    List V → Except E (List (String × V)) :=
  fun results => Except.ok (keys.zip results)

/-- Modelled from the spec: one call of the selector built by
`createStructuredSelector` — the dependency list is the shape's values in
enumeration order and the combiner re-zips the shape's keys onto the
results, delegating entirely to the Selector Factory for caching. -/
def structuredSelectorCall {V E : Type} (eqArgs eqRes : V → V → Bool)
    (shape : List (String × (List V → V)))
    (st : SelectorState V (List (String × V))) (args : List V) :
    Except E (List (String × V)) × SelectorState V (List (String × V)) :=
  selectorCall eqArgs eqRes (shape.map Prod.snd)
    (structuredCombiner (shape.map Prod.fst)) st args

/-- A memoized function as the stability check receives one: the state it
threads between calls, starting from the state `memoize` created it with.
This stands for `memoize(() => ({}), ...memoizeOptions)` in
`runStabilityCheck`, with the memoizer left abstract as in the source. -/
structure MemoizedFn (V O S : Type) where
  start : S
  app : S → List V → O × S

/-- Embeds `runStabilityCheck` from `src/src/utils.ts`: feed both input
selector result sequences through one freshly memoized throwaway function
and emit a warning (`true`) exactly when the two outputs are not
reference-equal.  The function only reads its inputs — it never throws and
touches neither the selector's caches nor its returned result. -/
def runStabilityCheck {V O S : Type} [DecidableEq O] (m : MemoizedFn V O S)
    (inputSelectorResults inputSelectorResultsCopy : List V) : Bool :=
  let first := m.app m.start inputSelectorResults
  let second := m.app first.2 inputSelectorResultsCopy
  !(decide (first.1 = second.1))

/-- Modelled from the spec: the throwaway memoized function that
`runStabilityCheck` builds when the configured memoizer is the Default
Memoizer — `memoize(() => ({}), equalityCheck)`.  Objects are modelled by
allocation numbers: each invocation of the wrapped thunk allocates a fresh
object, so two outputs are reference-equal exactly when the second call was
a cache hit. -/
def defaultThrowaway {V : Type} (eq : V → V → Bool) :
    MemoizedFn V Nat (Option (CacheEntry V Nat) × Nat) where
  start := (none, 0)
  app := fun s args =>
    match memoCall eq (fun _ => (Except.ok s.2 : Except Empty Nat)) s.1 args with
    | (Except.ok v, c2, invoked) => (v, (c2, if invoked then s.2 + 1 else s.2))
    | (Except.error _, c2, _) => (0, (c2, s.2))

/-! Helper lemmas. -/

lemma collect_foldl_push {A B : Type} (deps : List (A → B)) (a : A) :
    ∀ acc : List B,
      deps.foldl (fun r dep => r ++ [dep a]) acc = acc ++ deps.map (fun dep => dep a) := by
  induction deps with
  | nil => intro acc; simp
  | cons d ds ih => intro acc; simp [List.foldl_cons, ih]

lemma collect_eq_map {A B : Type} (deps : List (A → B)) (a : A) :
    collectInputSelectorResults deps a = deps.map (fun dep => dep a) := by
  simpa using collect_foldl_push deps a []

lemma collectM_instrumented {A B : Type} (g : Nat → A → B) (a : A) :
    ∀ (idxs : List Nat) (log : List Nat),
      collectInputSelectorResultsM
          (idxs.map (fun i => fun x log2 => (g i x, log2 ++ [i]))) a log
        = (idxs.map (fun i => g i a), log ++ idxs) := by
  intro idxs
  induction idxs with
  | nil => intro log; simp [collectInputSelectorResultsM]
  | cons i rest ih =>
    intro log
    simp [collectInputSelectorResultsM, ih]

lemma argsEqual_trans {V : Type} (eq : V → V → Bool)
    (htr : ∀ a b c, eq a b = true → eq b c = true → eq a c = true) :
    ∀ xs ys zs : List V, argsEqual eq xs ys = true → argsEqual eq ys zs = true →
      argsEqual eq xs zs = true := by
  intro xs
  induction xs with
  | nil => intro ys zs h1 h2; cases ys <;> cases zs <;> simp_all [argsEqual]
  | cons x xs ih =>
    intro ys zs h1 h2
    cases ys with
    | nil => simp [argsEqual] at h1
    | cons y ys =>
      cases zs with
      | nil => simp [argsEqual] at h2
      | cons z zs =>
        simp only [argsEqual, Bool.and_eq_true] at h1 h2 ⊢
        exact ⟨htr x y z h1.1 h2.1, ih ys zs h1.2 h2.2⟩

lemma memoCall_total_cases {V R E : Type} (eq : V → V → Bool) (f : List V → R)
    (cache : Option (CacheEntry V R)) (args : List V) :
    (∃ entry, cache = some entry ∧ argsEqual eq args entry.lastArgs = true ∧
      memoCall (E := E) eq (fun xs => Except.ok (f xs)) cache args
        = (Except.ok entry.lastResult,
            some (CacheEntry.mk args entry.lastResult), false)) ∨
    memoCall (E := E) eq (fun xs => Except.ok (f xs)) cache args
      = (Except.ok (f args), some (CacheEntry.mk args (f args)), true) := by
  cases cache with
  | none => right; simp [memoCall]
  | some entry =>
    by_cases h : argsEqual eq args entry.lastArgs = true
    · exact Or.inl ⟨entry, rfl, h, by simp [memoCall, h]⟩
    · right; simp [memoCall, h]

lemma selectorBody_total {V R E : Type} (eqRes : V → V → Bool)
    (deps : List (List V → V)) (f : List V → R) (st : SelectorState V R)
    (args : List V) :
    ∃ v : R,
      (selectorBody (E := E) eqRes deps (fun xs => Except.ok (f xs)) st args).1
        = Except.ok v ∧
      (selectorBody (E := E) eqRes deps (fun xs => Except.ok (f xs)) st args).2.argsCache
        = some (CacheEntry.mk args v) ∧
      (selectorBody (E := E) eqRes deps (fun xs => Except.ok (f xs)) st args).2.recomputations
        ≤ st.recomputations + 1 := by
  rcases memoCall_total_cases (E := E) eqRes f st.resultCache
      (collectInputSelectorResults deps args) with ⟨entry, hc, hq, hmc⟩ | hmc
  · exact ⟨entry.lastResult, by simp [selectorBody, hmc], by simp [selectorBody, hmc],
      by simp [selectorBody, hmc]⟩
  · exact ⟨f (collectInputSelectorResults deps args), by simp [selectorBody, hmc],
      by simp [selectorBody, hmc], by simp [selectorBody, hmc]⟩

lemma memoCall_error_state {V R E : Type} (eq : V → V → Bool)
    (fn : List V → Except E R) (cache : Option (CacheEntry V R)) (args : List V)
    (e : E) (c2 : Option (CacheEntry V R)) (inv : Bool)
    (h : memoCall eq fn cache args = (Except.error e, c2, inv)) :
    c2 = cache ∧ inv = true := by
  cases cache with
  | none =>
    cases hfn : fn args with
    | ok v => simp [memoCall, hfn] at h
    | error e2 => simp [memoCall, hfn] at h; exact ⟨h.2.1.symm, h.2.2⟩
  | some entry =>
    by_cases hq : argsEqual eq args entry.lastArgs = true
    · simp [memoCall, hq] at h
    · cases hfn : fn args with
      | ok v => simp [memoCall, hq, hfn] at h
      | error e2 => simp [memoCall, hq, hfn] at h; exact ⟨h.2.1.symm, h.2.2⟩

lemma memoCall_ok_cache {V R E : Type} (eq : V → V → Bool)
    (fn : List V → Except E R) (c0 : Option (CacheEntry V R)) (args : List V)
    (v : R) (c1 : Option (CacheEntry V R)) (b : Bool)
    (h : memoCall eq fn c0 args = (Except.ok v, c1, b)) :
    c1 = some (CacheEntry.mk args v) := by
  cases c0 with
  | none =>
    cases hfn : fn args with
    | ok w =>
      simp [memoCall, hfn] at h
      rw [← h.2.1, h.1]
    | error e => simp [memoCall, hfn] at h
  | some entry =>
    by_cases hq : argsEqual eq args entry.lastArgs = true
    · simp [memoCall, hq] at h
      rw [← h.2.1, h.1]
    · cases hfn : fn args with
      | ok w =>
        simp [memoCall, hq, hfn] at h
        rw [← h.2.1, h.1]
      | error e => simp [memoCall, hq, hfn] at h

lemma selectorBody_ok_argsCache {V R E : Type} (eqRes : V → V → Bool)
    (deps : List (List V → V)) (combiner : List V → Except E R)
    (st : SelectorState V R) (args : List V) (v : R)
    (h : (selectorBody eqRes deps combiner st args).1 = Except.ok v) :
    (selectorBody eqRes deps combiner st args).2.argsCache
      = some (CacheEntry.mk args v) := by
  rcases hmc : memoCall eqRes combiner st.resultCache
      (collectInputSelectorResults deps args) with ⟨res, c2, inv⟩
  cases res with
  | ok w =>
    have hw : w = v := by simpa [selectorBody, hmc] using h
    simp [selectorBody, hmc, hw]
  | error e2 => simp [selectorBody, hmc] at h

lemma selectorBody_error_state {V R E : Type} (eqRes : V → V → Bool)
    (deps : List (List V → V)) (combiner : List V → Except E R)
    (st : SelectorState V R) (args : List V) (e : E)
    (h : (selectorBody eqRes deps combiner st args).1 = Except.error e) :
    (selectorBody eqRes deps combiner st args).2.argsCache = st.argsCache ∧
    (selectorBody eqRes deps combiner st args).2.resultCache = st.resultCache := by
  rcases hmc : memoCall eqRes combiner st.resultCache
      (collectInputSelectorResults deps args) with ⟨res, c2, inv⟩
  cases res with
  | ok w => simp [selectorBody, hmc] at h
  | error e2 =>
    have hc := memoCall_error_state eqRes combiner st.resultCache
      (collectInputSelectorResults deps args) e2 c2 inv hmc
    constructor <;> simp [selectorBody, hmc, hc.1]

lemma selectorCall_ok_argsCache {V R E : Type} (eqArgs eqRes : V → V → Bool)
    (deps : List (List V → V)) (combiner : List V → Except E R)
    (st : SelectorState V R) (A : List V) (v : R)
    (h : (selectorCall eqArgs eqRes deps combiner st A).1 = Except.ok v) :
    (selectorCall eqArgs eqRes deps combiner st A).2.argsCache
      = some (CacheEntry.mk A v) := by
  cases hc : st.argsCache with
  | some entry =>
    by_cases hq : argsEqual eqArgs A entry.lastArgs = true
    · have hcall : selectorCall eqArgs eqRes deps combiner st A
          = (Except.ok entry.lastResult,
              SelectorState.mk (some (CacheEntry.mk A entry.lastResult))
                st.resultCache st.recomputations) := by
        simp [selectorCall, hc, hq]
      have hv : entry.lastResult = v := by
        rw [hcall] at h; exact Except.ok.inj h
      rw [hcall, ← hv]
    · have hcall : selectorCall eqArgs eqRes deps combiner st A
          = selectorBody eqRes deps combiner st A := by simp [selectorCall, hc, hq]
      rw [hcall] at h ⊢
      exact selectorBody_ok_argsCache eqRes deps combiner st A v h
  | none =>
    have hcall : selectorCall eqArgs eqRes deps combiner st A
        = selectorBody eqRes deps combiner st A := by simp [selectorCall, hc]
    rw [hcall] at h ⊢
    exact selectorBody_ok_argsCache eqRes deps combiner st A v h

lemma selectorCall_error_caches {V R E : Type} (eqArgs eqRes : V → V → Bool)
    (deps : List (List V → V)) (combiner : List V → Except E R)
    (st : SelectorState V R) (B : List V) (e : E)
    (h : (selectorCall eqArgs eqRes deps combiner st B).1 = Except.error e) :
    (selectorCall eqArgs eqRes deps combiner st B).2.argsCache = st.argsCache ∧
    (selectorCall eqArgs eqRes deps combiner st B).2.resultCache = st.resultCache := by
  cases hc : st.argsCache with
  | some entry =>
    by_cases hq : argsEqual eqArgs B entry.lastArgs = true
    · have hcall : selectorCall eqArgs eqRes deps combiner st B
          = (Except.ok entry.lastResult,
              SelectorState.mk (some (CacheEntry.mk B entry.lastResult))
                st.resultCache st.recomputations) := by
        simp [selectorCall, hc, hq]
      rw [hcall] at h
      simp at h
    · have hcall : selectorCall eqArgs eqRes deps combiner st B
          = selectorBody eqRes deps combiner st B := by simp [selectorCall, hc, hq]
      rw [hcall] at h ⊢
      have hbody := selectorBody_error_state eqRes deps combiner st B e h
      exact ⟨hbody.1.trans hc, hbody.2⟩
  | none =>
    have hcall : selectorCall eqArgs eqRes deps combiner st B
        = selectorBody eqRes deps combiner st B := by simp [selectorCall, hc]
    rw [hcall] at h ⊢
    have hbody := selectorBody_error_state eqRes deps combiner st B e h
    exact ⟨hbody.1.trans hc, hbody.2⟩

lemma selectorCall_hit {V R E : Type} (eqArgs eqRes : V → V → Bool)
    (deps : List (List V → V)) (combiner : List V → Except E R)
    (st : SelectorState V R) (args : List V) (entry : CacheEntry V R)
    (hc : st.argsCache = some entry)
    (hq : argsEqual eqArgs args entry.lastArgs = true) :
    selectorCall eqArgs eqRes deps combiner st args
      = (Except.ok entry.lastResult,
          SelectorState.mk (some (CacheEntry.mk args entry.lastResult))
            st.resultCache st.recomputations) := by
  simp [selectorCall, hc, hq]

lemma consultPairs_take {V : Type} (eq : V → V → Bool) :
    ∀ xs ys : List V, ∃ k, consultPairs eq xs ys = (xs.zip ys).take k := by
  intro xs
  induction xs with
  | nil => intro ys; exact ⟨0, by cases ys <;> simp [consultPairs]⟩
  | cons x xs ih =>
    intro ys
    cases ys with
    | nil => exact ⟨0, by simp [consultPairs]⟩
    | cons y ys =>
      by_cases h : eq x y = true
      · rcases ih ys with ⟨k, hk⟩
        exact ⟨k + 1, by simp [consultPairs, h, hk]⟩
      · exact ⟨1, by simp [consultPairs, h]⟩

/-! Claim theorems. -/

/-- Claim C10: `assertIsObject` throws a `TypeError` exactly when the
`typeof` of its argument is not `"object"`; in particular `null`, whose
`typeof` is `"object"`, passes the check without error, so a null
structured-selector shape is not rejected by this validation step. -/
theorem assertIsObject_typeof_check :
    (∀ v : JSValue, (assertIsObject v = Except.ok ()) ↔ typeOf v = "object") ∧
    assertIsObject JSValue.null = Except.ok () := by
  constructor
  · intro v
    by_cases h : typeOf v = "object" <;> simp [assertIsObject, h]
  · rfl

/-- Claim C4, counterexample: a construction call with an empty candidate
extractor list does not fail — `getDependencies` on the empty argument list
returns the empty dependency list instead of throwing, because the
callability check `array.every(...)` is vacuously true on `[]`.  The claimed
enforcement of the length ≥ 1 invariant at construction time therefore does
not happen. -/
theorem getDependencies_empty_ok_counterexample :
    getDependencies [] = Except.ok [] := rfl

/-- Claim C4, amended: construction with an empty candidate extractor list
succeeds (the empty dependency list is returned); the only construction-time
validation is callability of every candidate element — the length ≥ 1
invariant of the Dependency List is not enforced at construction (nor at
call time). -/
theorem getDependencies_validation_amended :
    getDependencies [] = Except.ok [] ∧
    ∀ args : List JSValue,
      (getDependencies args = Except.ok (selectorCandidates args) ↔
        (selectorCandidates args).all isFunction = true) := by
  refine ⟨rfl, ?_⟩
  intro args
  by_cases h : (selectorCandidates args).all isFunction = true
  · simp [getDependencies, assertIsArrayOfFunctions, h]
  · simp [getDependencies, assertIsArrayOfFunctions, h]

/-- Claim C5: whenever some candidate extractor is not callable,
`getDependencies` throws a `TypeError` synchronously (no selector is
produced) whose message enumerates the runtime type description of every
candidate element — `function name()` for callable ones, `typeof item` for
the offending ones — bracketed and comma-separated. -/
theorem getDependencies_type_error_enumerates_types (args : List JSValue)
    (h : (selectorCandidates args).all isFunction = false) :
    getDependencies args = Except.error (JSError.typeError
      ("createSelector expects all input-selectors to be functions, but received the following types: "
        ++ "[" ++ String.intercalate (", ") ((selectorCandidates args).map itemTypeDescription)
        ++ "]")) := by
  simp [getDependencies, assertIsArrayOfFunctions, h]

/-- Claim C5, witness: the test's shape — a function followed by the string
`'not a function'` — is rejected with the message enumerating both types. -/
theorem getDependencies_type_error_witness :
    (selectorCandidates [JSValue.func "", JSValue.str "not a function"]).all isFunction
        = false ∧
    getDependencies [JSValue.func "", JSValue.str "not a function"]
      = Except.error (JSError.typeError
          ("createSelector expects all input-selectors to be functions, but received the following types: [function unnamed(), string]")) := by
  refine ⟨rfl, ?_⟩
  rw [getDependencies_type_error_enumerates_types
    [JSValue.func "", JSValue.str "not a function"] rfl]
  rfl

/-- Claim C6: `collectInputSelectorResults deps args` equals the map of the
dependencies over the arguments — its length is the number of dependencies
and its `i`-th element is `deps[i]` applied to `args` — and the loop invokes
the extractors in increasing index order: instrumenting each extractor to
log its index shows the log comes out as `0, 1, …, n-1`.  (The collected
sequence is exactly what `selectorBody` later spreads into the combiner.) -/
theorem collectInputSelectorResults_spec {A B : Type} (deps : List (A → B))
    (a : A) (d : B) (g : Nat → A → B) (n : Nat) :
    collectInputSelectorResults deps a = deps.map (fun dep => dep a) ∧
    (collectInputSelectorResults deps a).length = deps.length ∧
    (∀ i : Fin deps.length,
      (collectInputSelectorResults deps a).getD i.val d = (deps.get i) a) ∧
    collectInputSelectorResultsM
        ((List.range n).map (fun i => fun x log2 => (g i x, log2 ++ [i]))) a []
      = ((List.range n).map (fun i => g i a), List.range n) := by
  refine ⟨collect_eq_map deps a, ?_, ?_, ?_⟩
  · rw [collect_eq_map]; simp
  · intro i
    rw [collect_eq_map]
    simp [List.getD_eq_getElem?_getD, List.getElem?_map, List.getElem?_eq_getElem i.isLt]
  · simpa using collectM_instrumented g a (List.range n) []

/-- Claim C1 (cache hit law): for a selector built from pure extractors and
a pure (total) combiner, calling it twice in succession with argument lists
that compare equal under the configured argument-level equality policy
increments the recomputation counter — which counts combiner invocations —
at most once across the two calls.  The equality predicate is assumed
transitive, as the spec requires of a valid equivalence relation. -/
theorem createSelector_cache_hit_law {V R E : Type} (eqArgs eqRes : V → V → Bool)
    (_htr : ∀ a b c, eqArgs a b = true → eqArgs b c = true → eqArgs a c = true)
    (deps : List (List V → V)) (f : List V → R) (st0 : SelectorState V R)
    (args1 args2 : List V) (heq : argsEqual eqArgs args2 args1 = true) :
    (selectorCall (E := E) eqArgs eqRes deps (fun xs => Except.ok (f xs))
        (selectorCall (E := E) eqArgs eqRes deps (fun xs => Except.ok (f xs)) st0 args1).2
        args2).2.recomputations
      ≤ st0.recomputations + 1 := by
  have h1 : ∃ v : R,
      (selectorCall (E := E) eqArgs eqRes deps (fun xs => Except.ok (f xs))
          st0 args1).2.argsCache = some (CacheEntry.mk args1 v) ∧
      (selectorCall (E := E) eqArgs eqRes deps (fun xs => Except.ok (f xs))
          st0 args1).2.recomputations ≤ st0.recomputations + 1 := by
    cases hc : st0.argsCache with
    | some entry =>
      by_cases hq : argsEqual eqArgs args1 entry.lastArgs = true
      · refine ⟨entry.lastResult, ?_, ?_⟩
        · rw [selectorCall_hit eqArgs eqRes deps (fun xs => Except.ok (f xs))
            st0 args1 entry hc hq]
        · rw [selectorCall_hit eqArgs eqRes deps (fun xs => Except.ok (f xs))
            st0 args1 entry hc hq]
          exact Nat.le_succ st0.recomputations
      · have hcall : selectorCall (E := E) eqArgs eqRes deps (fun xs => Except.ok (f xs)) st0 args1
            = selectorBody (E := E) eqRes deps (fun xs => Except.ok (f xs)) st0 args1 := by
          simp [selectorCall, hc, hq]
        rcases selectorBody_total (E := E) eqRes deps f st0 args1 with ⟨v, hv1, hv2, hv3⟩
        exact ⟨v, by rw [hcall]; exact hv2, by rw [hcall]; exact hv3⟩
    | none =>
      have hcall : selectorCall (E := E) eqArgs eqRes deps (fun xs => Except.ok (f xs)) st0 args1
          = selectorBody (E := E) eqRes deps (fun xs => Except.ok (f xs)) st0 args1 := by
        simp [selectorCall, hc]
      rcases selectorBody_total (E := E) eqRes deps f st0 args1 with ⟨v, hv1, hv2, hv3⟩
      exact ⟨v, by rw [hcall]; exact hv2, by rw [hcall]; exact hv3⟩
  rcases h1 with ⟨v, hcache, hrec⟩
  rw [selectorCall_hit eqArgs eqRes deps (fun xs => Except.ok (f xs)) _ args2
    (CacheEntry.mk args1 v) hcache heq]
  exact hrec

/-- Claim C1, witness: the concrete single-extractor selector of the basic
test, called twice on equal argument lists from a fresh state. -/
theorem createSelector_cache_hit_law_witness :
    (selectorCall (E := Unit) (fun a b : Fin 3 => a == b) (fun a b : Fin 3 => a == b)
        [fun s => s.getD 0 0]
        (fun xs => Except.ok ((fun ys : List (Fin 3) => ys.getD 0 0) xs))
        (selectorCall (E := Unit) (fun a b : Fin 3 => a == b) (fun a b : Fin 3 => a == b)
          [fun s => s.getD 0 0]
          (fun xs => Except.ok ((fun ys : List (Fin 3) => ys.getD 0 0) xs))
          (SelectorState.mk none none 0) [1]).2
        [1]).2.recomputations
      ≤ (SelectorState.mk (V := Fin 3) (R := Fin 3) none none 0).recomputations + 1 :=
  createSelector_cache_hit_law (fun a b : Fin 3 => a == b) (fun a b : Fin 3 => a == b)
    (by decide) [fun s => s.getD 0 0] (fun ys => ys.getD 0 0)
    (SelectorState.mk none none 0) [1] [1] (by decide)

/-- Claim C2 (no-cache-on-error): if a call throws while the call before it
succeeded on arguments `A`, then (i) the throwing call replaced neither
tier's cache entry, and (ii) a subsequent call with arguments equal to `A`
under the (transitive) argument equality policy returns the previously
cached result without re-invoking the combiner (the recomputation counter
does not move). -/
theorem selector_no_cache_on_error {V R E : Type} (eqArgs eqRes : V → V → Bool)
    (_htr : ∀ a b c, eqArgs a b = true → eqArgs b c = true → eqArgs a c = true)
    (deps : List (List V → V)) (combiner : List V → Except E R)
    (st0 : SelectorState V R) (A B C : List V) (v : R) (err : E)
    (h1 : (selectorCall eqArgs eqRes deps combiner st0 A).1 = Except.ok v)
    (h2 : (selectorCall eqArgs eqRes deps combiner
        (selectorCall eqArgs eqRes deps combiner st0 A).2 B).1 = Except.error err)
    (heq : argsEqual eqArgs C A = true) :
    ((selectorCall eqArgs eqRes deps combiner
        (selectorCall eqArgs eqRes deps combiner st0 A).2 B).2.argsCache
      = (selectorCall eqArgs eqRes deps combiner st0 A).2.argsCache) ∧
    ((selectorCall eqArgs eqRes deps combiner
        (selectorCall eqArgs eqRes deps combiner st0 A).2 B).2.resultCache
      = (selectorCall eqArgs eqRes deps combiner st0 A).2.resultCache) ∧
    ((selectorCall eqArgs eqRes deps combiner
        (selectorCall eqArgs eqRes deps combiner
          (selectorCall eqArgs eqRes deps combiner st0 A).2 B).2 C).1
      = Except.ok v) ∧
    ((selectorCall eqArgs eqRes deps combiner
        (selectorCall eqArgs eqRes deps combiner
          (selectorCall eqArgs eqRes deps combiner st0 A).2 B).2 C).2.recomputations
      = (selectorCall eqArgs eqRes deps combiner
          (selectorCall eqArgs eqRes deps combiner st0 A).2 B).2.recomputations) := by
  have hA : (selectorCall eqArgs eqRes deps combiner st0 A).2.argsCache
      = some (CacheEntry.mk A v) :=
    selectorCall_ok_argsCache eqArgs eqRes deps combiner st0 A v h1
  have hcaches := selectorCall_error_caches eqArgs eqRes deps combiner
    (selectorCall eqArgs eqRes deps combiner st0 A).2 B err h2
  have hst2 : (selectorCall eqArgs eqRes deps combiner
      (selectorCall eqArgs eqRes deps combiner st0 A).2 B).2.argsCache
      = some (CacheEntry.mk A v) := hcaches.1.trans hA
  refine ⟨hcaches.1, hcaches.2, ?_, ?_⟩
  · rw [selectorCall_hit eqArgs eqRes deps combiner _ C (CacheEntry.mk A v) hst2 heq]
  · rw [selectorCall_hit eqArgs eqRes deps combiner _ C (CacheEntry.mk A v) hst2 heq]

/-- Claim C2, witness: the test scenario — a combiner that throws when its
input exceeds 1, called on `[1]` (succeeds), `[2]` (throws), `[1]` again. -/
theorem selector_no_cache_on_error_witness :
    ((selectorCall (fun a b : Fin 3 => a == b) (fun a b : Fin 3 => a == b)
        [fun s => s.getD 0 0]
        (fun xs => if xs.getD 0 0 > 1 then Except.error () else Except.ok (xs.getD 0 0))
        (selectorCall (fun a b : Fin 3 => a == b) (fun a b : Fin 3 => a == b)
          [fun s => s.getD 0 0]
          (fun xs => if xs.getD 0 0 > 1 then Except.error () else Except.ok (xs.getD 0 0))
          (selectorCall (fun a b : Fin 3 => a == b) (fun a b : Fin 3 => a == b)
            [fun s => s.getD 0 0]
            (fun xs => if xs.getD 0 0 > 1 then Except.error () else Except.ok (xs.getD 0 0))
            (SelectorState.mk none none 0) [1]).2 [2]).2 [1]).1
      = Except.ok 1) := by
  have h := selector_no_cache_on_error (fun a b : Fin 3 => a == b) (fun a b : Fin 3 => a == b)
    (by decide) [fun s => s.getD 0 0]
    (fun xs => if xs.getD 0 0 > 1 then Except.error () else Except.ok (xs.getD 0 0))
    (SelectorState.mk none none 0) [1] [2] [1] 1 () rfl rfl (by decide)
  exact h.2.2.1

/-- Claim C3 (reset idempotence): `resetRecomputations` sets the counter to
0 and clears both cache slots, so the very next call — with any argument
list, in particular one equal to the last cached call's — runs the body and
invokes the combiner exactly once, leaving the counter at 1. -/
theorem resetRecomputations_zeroes_and_forces_recompute {V R E : Type}
    (eqArgs eqRes : V → V → Bool) (deps : List (List V → V))
    (combiner : List V → Except E R) (st : SelectorState V R) (args : List V) :
    (resetRecomputations st).recomputations = 0 ∧
    (selectorCall eqArgs eqRes deps combiner (resetRecomputations st) args).2.recomputations
      = 1 := by
  constructor
  · rfl
  · cases hf : combiner (collectInputSelectorResults deps args) <;>
      simp [selectorCall, resetRecomputations, selectorBody, memoCall, hf]

/-- Claim C7: whenever the default memoizer consults the equality predicate,
it passes the current call's argument as the first parameter (`newValue`)
and the positionally corresponding argument of the immediately preceding
call as the second parameter (`oldValue`), and equality is never evaluated
against any call earlier than the immediately preceding one (cache depth
exactly one).  After any call that returns successfully — a hit refreshes
the stored argument list, a miss overwrites it — the single cache slot holds
exactly that call's arguments, so the pairs the next call consults form an
initial run of the positional zip of its arguments with the immediately
preceding call's arguments, and the one slot is all that is ever
consulted. -/
theorem memoizer_equality_newold_pairs {V R E : Type} (eq : V → V → Bool)
    (fn : List V → Except E R) (c0 : Option (CacheEntry V R))
    (args1 args2 : List V) (v : R) (c1 : Option (CacheEntry V R)) (b : Bool)
    (h : memoCall eq fn c0 args1 = (Except.ok v, c1, b)) :
    ∃ k, memoConsultTrace eq c1 args2 = (args2.zip args1).take k := by
  have hc : c1 = some (CacheEntry.mk args1 v) :=
    memoCall_ok_cache eq fn c0 args1 v c1 b h
  rw [hc]
  simp only [memoConsultTrace]
  by_cases hl : args2.length = args1.length
  · simpa [hl] using consultPairs_take eq args2 args1
  · exact ⟨0, by simp [hl]⟩

/-- Claim C7, witness: the pinned hit scenario under a parity predicate — a
call on `[2]` hits the slot storing `[0]` and refreshes it to `[2]`, so the
next call on `[1]` consults only positional pairs drawn from `zip [1] [2]`,
i.e. against the immediately preceding call. -/
theorem memoizer_equality_newold_pairs_witness :
    ∃ k, memoConsultTrace (fun a b : Nat => a % 2 == b % 2)
        (some (CacheEntry.mk [2] 0)) [1] = (([1].zip [2]).take k) :=
  memoizer_equality_newold_pairs (fun a b : Nat => a % 2 == b % 2)
    (fun xs => (Except.ok (xs.getD 0 0) : Except Unit Nat))
    (some (CacheEntry.mk [0] 0)) [2] [1] 0 (some (CacheEntry.mk [2] 0)) false rfl

/-- Claim C8 (structured selector shape law): the selector built from a
shape re-zips the shape's keys, in enumeration order, onto the extractor
results — from a fresh state, `buildStructured [(x, e1), (y, e2)] args`
returns `[(x, e1 args), (y, e2 args)]` — and a second call whose extracted
values compare equal under the result-tier equality policy returns the very
cached result object (the combiner builds no new object: the recomputation
counter does not move). -/
theorem structuredSelector_shape_law {V E : Type} (eqArgs eqRes : V → V → Bool)
    (shape : List (String × (List V → V))) (args1 args2 : List V)
    (hEq : argsEqual eqRes
        (collectInputSelectorResults (shape.map Prod.snd) args2)
        (collectInputSelectorResults (shape.map Prod.snd) args1) = true) :
    (structuredSelectorCall (E := E) eqArgs eqRes shape
        (SelectorState.mk none none 0) args1).1
      = Except.ok (shape.map (fun p => (p.1, p.2 args1))) ∧
    (structuredSelectorCall (E := E) eqArgs eqRes shape
        (structuredSelectorCall (E := E) eqArgs eqRes shape
          (SelectorState.mk none none 0) args1).2 args2).1
      = (structuredSelectorCall (E := E) eqArgs eqRes shape
          (SelectorState.mk none none 0) args1).1 ∧
    (structuredSelectorCall (E := E) eqArgs eqRes shape
        (structuredSelectorCall (E := E) eqArgs eqRes shape
          (SelectorState.mk none none 0) args1).2 args2).2.recomputations
      = (structuredSelectorCall (E := E) eqArgs eqRes shape
          (SelectorState.mk none none 0) args1).2.recomputations := by
  have hzip : (shape.map Prod.fst).zip
      (collectInputSelectorResults (shape.map Prod.snd) args1)
      = shape.map (fun p => (p.1, p.2 args1)) := by
    rw [collect_eq_map, List.map_map]
    exact List.zip_map' Prod.fst (fun p : String × (List V → V) => p.2 args1) shape
  have h1 : structuredSelectorCall (E := E) eqArgs eqRes shape
      (SelectorState.mk none none 0) args1
      = (Except.ok (shape.map (fun p => (p.1, p.2 args1))),
          SelectorState.mk
            (some (CacheEntry.mk args1 (shape.map (fun p => (p.1, p.2 args1)))))
            (some (CacheEntry.mk
              (collectInputSelectorResults (shape.map Prod.snd) args1)
              (shape.map (fun p => (p.1, p.2 args1)))))
            1) := by
    simp [structuredSelectorCall, selectorCall, selectorBody, memoCall,
      structuredCombiner, hzip]
  refine ⟨by rw [h1], ?_, ?_⟩
  · rw [h1]
    by_cases ha : argsEqual eqArgs args2 args1 = true
    · simp [structuredSelectorCall, selectorCall, ha]
    · simp [structuredSelectorCall, selectorCall, selectorBody, memoCall,
        structuredCombiner, hEq, ha]
  · rw [h1]
    by_cases ha : argsEqual eqArgs args2 args1 = true
    · simp [structuredSelectorCall, selectorCall, ha]
    · simp [structuredSelectorCall, selectorCall, selectorBody, memoCall,
        structuredCombiner, hEq, ha]

/-- Claim C8, witness: the test's structured selector with keys `x` and `y`
over the state `[1, 2]`, called twice. -/
theorem structuredSelector_shape_law_witness :
    (structuredSelectorCall (E := Unit) (fun a b : Nat => a == b) (fun a b : Nat => a == b)
        [("x", fun s => s.getD 0 0), ("y", fun s => s.getD 1 0)]
        (SelectorState.mk none none 0) [1, 2]).1
      = Except.ok [("x", 1), ("y", 2)] ∧
    (structuredSelectorCall (E := Unit) (fun a b : Nat => a == b) (fun a b : Nat => a == b)
        [("x", fun s => s.getD 0 0), ("y", fun s => s.getD 1 0)]
        (structuredSelectorCall (E := Unit) (fun a b : Nat => a == b) (fun a b : Nat => a == b)
          [("x", fun s => s.getD 0 0), ("y", fun s => s.getD 1 0)]
          (SelectorState.mk none none 0) [1, 2]).2 [1, 2]).1
      = (structuredSelectorCall (E := Unit) (fun a b : Nat => a == b) (fun a b : Nat => a == b)
          [("x", fun s => s.getD 0 0), ("y", fun s => s.getD 1 0)]
          (SelectorState.mk none none 0) [1, 2]).1 ∧
    (structuredSelectorCall (E := Unit) (fun a b : Nat => a == b) (fun a b : Nat => a == b)
        [("x", fun s => s.getD 0 0), ("y", fun s => s.getD 1 0)]
        (structuredSelectorCall (E := Unit) (fun a b : Nat => a == b) (fun a b : Nat => a == b)
          [("x", fun s => s.getD 0 0), ("y", fun s => s.getD 1 0)]
          (SelectorState.mk none none 0) [1, 2]).2 [1, 2]).2.recomputations
      = (structuredSelectorCall (E := Unit) (fun a b : Nat => a == b) (fun a b : Nat => a == b)
          [("x", fun s => s.getD 0 0), ("y", fun s => s.getD 1 0)]
          (SelectorState.mk none none 0) [1, 2]).2.recomputations :=
  structuredSelector_shape_law (fun a b : Nat => a == b) (fun a b : Nat => a == b)
    [("x", fun s => s.getD 0 0), ("y", fun s => s.getD 1 0)] [1, 2] [1, 2] (by decide)

/-- Claim C9: `runStabilityCheck` emits a warning exactly when feeding the
two input-selector result sequences through the one freshly memoized
throwaway function yields reference-unequal outputs; instantiated with the
default memoizer (whose throwaway thunk allocates a fresh object per
invocation), the warning fires exactly when the configured result-tier
equality policy judges the two sequences unequal.  The function is total
(never throws) and takes neither the selector's caches nor its result, so
it can alter neither. -/
theorem runStabilityCheck_warns_iff {V O S : Type} [DecidableEq O]
    (m : MemoizedFn V O S) (r c : List V) (q : V → V → Bool) :
    (runStabilityCheck m r c = true ↔
      (m.app m.start r).1 ≠ (m.app (m.app m.start r).2 c).1) ∧
    runStabilityCheck (defaultThrowaway q) r c = !(argsEqual q c r) := by
  constructor
  · simp [runStabilityCheck]
  · by_cases h : argsEqual q c r = true <;>
      simp [runStabilityCheck, defaultThrowaway, memoCall, h]

end Reselect
